import Mathlib

/-!
Shallow embedding of the recruiter-outreach-automation repository
(src/main.py, src/outreach/__init__.py, src/utils/ratelimiter.py,
src/utils/config.py) and proofs about the frozen claims.

Conventions of the embedding:
* Python exceptions become an explicit `PyError` value returned through
  `Except`.
* Wall-clock time is an integer number of time units; `time.sleep(d)`
  advances the modeled clock by exactly `d`; `time.time()` reads the
  modeled clock.
* Python falsiness of an optional string (`None` or the empty string)
  is `pyTruthy = false`.
-/

/-- Python exception values that the embedded code can raise. -/
inductive PyError
  | nameError (name : String)
  | valueError (msg : String)
  | fileNotFoundError (msg : String)
  deriving DecidableEq

/-- Python truthiness of an optional string: `None` and `""` are falsy. -/
def pyTruthy : Option String → Bool
  | none => false
  | some s => !s.isEmpty

/-- Whitespace characters recognised by Python's `str.strip` / `str.split`
(ASCII subset, which covers all strings appearing in this development). -/
def isPySpace (c : Char) : Bool :=
  c = ' ' || c = '\t' || c = '\n' || c = '\r' || c = '\x0b' || c = '\x0c'

/-- Python `str.strip()` on a character list. -/
def pyStripList (cs : List Char) : List Char :=
  ((cs.dropWhile isPySpace).reverse.dropWhile isPySpace).reverse

/-- Python `str.strip()`. -/
def pyStrip (s : String) : String :=
  String.mk (pyStripList s.data)

/-- Python `str.split()` (no separator: split on whitespace runs,
dropping empty tokens). `acc` holds the characters of the token being
built, in reverse. -/
def pySplitAux : List Char → List Char → List String
  | [], [] => []
  | [], acc => [String.mk acc.reverse]
  | c :: cs, acc =>
    if isPySpace c then
      match acc with
      | [] => pySplitAux cs []
      | _ => String.mk acc.reverse :: pySplitAux cs []
    else
      pySplitAux cs (c :: acc)

/-- Python `str.split()`. -/
def pySplit (s : String) : List String :=
  pySplitAux s.data []

/-- Digit run check used by `pyInt`. -/
def allDigits (cs : List Char) : Bool :=
  !cs.isEmpty && cs.all Char.isDigit

/-- Value of a base-10 digit run. -/
def digitsVal (cs : List Char) : Nat :=
  cs.foldl (fun a c => a * 10 + (c.toNat - 48)) 0

/-- Python `int(str)`: strip whitespace, optional sign, base-10 digits;
anything else raises `ValueError`. -/
def pyInt (s : String) : Except PyError Int :=
  match pyStripList s.data with
  | '+' :: ds =>
    if allDigits ds then .ok (digitsVal ds) else .error (.valueError "invalid literal for int")
  | '-' :: ds =>
    if allDigits ds then .ok (-(digitsVal ds : Int)) else .error (.valueError "invalid literal for int")
  | ds =>
    if allDigits ds then .ok (digitsVal ds) else .error (.valueError "invalid literal for int")

/-- `int(config.get(key, default))` where the default is already an int. -/
def pyIntOfConfig (v : Option String) (dflt : Int) : Except PyError Int :=
  match v with
  | none => .ok dflt
  | some s => pyInt s

/-! ## src/utils/ratelimiter.py -/

/-- Names bound at module level in `src/utils/ratelimiter.py`: the module
imports only `time` and defines the class `RateLimiter`.  In particular
`logging` is NOT among them, although `RateLimiter.__init__` evaluates
`logging.getLogger(__name__)`. -/
def ratelimiterModuleGlobals : List String := ["time", "RateLimiter"]

/-- The would-be state of a constructed `RateLimiter`. -/
structure RateLimiterData where
  calls_per_period : Int
  period : Int
  timestamps : List ℤ
  deriving DecidableEq

/-- `RateLimiter.__init__(calls_per_period, period)`: clamps both
parameters with `max(1, _)`, initialises the empty timestamp list, then
evaluates the free name `logging`, which raises `NameError` when the
name is not bound in the module. -/
def RateLimiter.init (calls_per_period period : Int) : Except PyError RateLimiterData :=
  let c := max 1 calls_per_period
  let p := max 1 period
  if "logging" ∈ ratelimiterModuleGlobals then
    .ok ⟨c, p, []⟩
  else
    .error (.nameError "logging")

/-- State of a sequential run of `RateLimiter.wait`:
`timestamps` is `self.timestamps`, `clock` is the modeled wall-clock time
at which the last call returned, and `grants` is the (ghost) history of
all appended timestamps, in order. -/
structure RLState where
  timestamps : List ℤ
  clock : ℤ
  grants : List ℤ
  deriving DecidableEq

/-- Initial limiter state at time `t0` (fresh `self.timestamps = []`). -/
def RLState.init (t0 : ℤ) : RLState := ⟨[], t0, []⟩

/-- One call to `RateLimiter.wait` (body of `src/utils/ratelimiter.py`,
lines 15-36), entered `delay ≥ 0` time units after the previous call
returned: read `now`; drop stored timestamps `t ≤ now - period`; if at
least `calls_per_period` remain, sleep `period - (now - timestamps[0])`
when positive and re-read `now`; append `now`. -/
def RateLimiter.wait (cpp : Nat) (period : ℤ) (s : RLState) (delay : ℤ) : RLState :=
  let now := s.clock + delay
  let ts1 := s.timestamps.filter (fun t => decide (now - period < t))
  if cpp ≤ ts1.length then
    let first := ts1.headD 0
    let sleepT := period - (now - first)
    let now2 := if 0 < sleepT then now + sleepT else now
    ⟨ts1 ++ [now2], now2, s.grants ++ [now2]⟩
  else
    ⟨ts1 ++ [now], now, s.grants ++ [now]⟩

/-- A sequence of sequential `wait` calls, the i-th entered `delays[i]`
after the previous one returned. -/
def RateLimiter.run (cpp : Nat) (period : ℤ) (delays : List ℤ) (s : RLState) : RLState :=
  match delays with
  | [] => s
  | d :: ds => RateLimiter.run cpp period ds (RateLimiter.wait cpp period s d)

/-- The clamp `max(1, calls_per_period)` applied by `__init__`, as a
natural number. -/
def clampCalls (n : Int) : Nat := (max 1 n).toNat

/-- The clamp `max(1, period)` applied by `__init__`. -/
def clampPeriod (q : ℤ) : ℤ := max 1 q

/-- Number of grants in the trailing half-open window `(t - period, t]`
(the window convention the pruning step itself uses: it keeps exactly
the timestamps `> now - period`). -/
def windowCount (grants : List ℤ) (period t : ℤ) : Nat :=
  (grants.filter (fun g => decide (t - period < g ∧ g ≤ t))).length

/-! ## src/outreach/__init__.py : email pattern -/

/-- Character class `[a-zA-Z0-9._%+-]` (local part of the email regex). -/
def isLocalChar (c : Char) : Bool :=
  c.isAlpha || c.isDigit || c = '.' || c = '_' || c = '%' || c = '+' || c = '-'

/-- Character class `[a-zA-Z0-9.-]` (domain part of the email regex). -/
def isDomainChar (c : Char) : Bool :=
  c.isAlpha || c.isDigit || c = '.' || c = '-'

/-- `[a-zA-Z]` followed by at least one more `[a-zA-Z]` matches here
(the `{2,}` tail of the regex; anything may follow, this is a search). -/
def tldHere : List Char → Bool
  | a :: b :: _ => a.isAlpha && b.isAlpha
  | _ => false

/-- Having consumed at least one `[a-zA-Z0-9.-]` after the `@`, either
the literal dot with a 2+ alpha tail matches here, or another domain
character is consumed (both alternatives of the backtracking search). -/
def domainRest : List Char → Bool
  | [] => false
  | c :: cs => (c = '.' && tldHere cs) || (isDomainChar c && domainRest cs)

/-- Match `[a-zA-Z0-9.-]+\.[a-zA-Z]{2,}` here. -/
def afterAt : List Char → Bool
  | [] => false
  | c :: cs => isDomainChar c && domainRest cs

/-- Having consumed at least one local character, match the rest of the
pattern here: further local characters, then `@`, then the domain. -/
def afterLocal : List Char → Bool
  | [] => false
  | c :: cs => if c = '@' then afterAt cs else isLocalChar c && afterLocal cs

/-- Match the whole pattern
`[a-zA-Z0-9._%+-]+@[a-zA-Z0-9.-]+\.[a-zA-Z]{2,}` starting here. -/
def emailHere : List Char → Bool
  | [] => false
  | c :: cs => isLocalChar c && afterLocal cs

/-- `re.search` of the pattern: does any suffix position start a match? -/
def emailSearch : List Char → Bool
  | [] => false
  | c :: cs => emailHere (c :: cs) || emailSearch cs

/-- `OutreachManager._find_email(text)` viewed as the truthiness test the
dispatcher applies to it (`if not self._find_email(hr_email)`): the
compiled regex has a match somewhere inside `text`.  A successful match
group is a nonempty string, hence truthy. -/
def find_email (text : String) : Bool :=
  emailSearch text.data

/-! ## src/outreach/__init__.py : manager state and startup -/

/-- The fields of a (hypothetically) constructed `OutreachManager` that
its methods read. -/
structure ManagerState where
  email_user : String
  email_password : String
  resume_path : String
  template : Option String
  smtp_server : String
  smtp_port : Int
  max_threads : Int
  max_retries : Nat
  deriving DecidableEq

/-- External world seen at startup: the `.env`-backed config, the
filesystem existence check, and file reading (template contents;
`none` models any exception during `load_template`, which the method
converts to `None`). -/
structure StartupEnv where
  config : String → Option String
  fileExists : String → Bool
  readFile : String → Option String

/-- `OutreachManager.load_template`: returns the file contents or `None`
on any error. -/
def load_template (env : StartupEnv) (path : String) : Option String :=
  env.readFile path

/-- `OutreachManager.__init__` (src/outreach/__init__.py lines 24-57):
read config values; `ValueError` when credentials are falsy, when the
resume path is falsy or not on disk, or when the template cannot be
loaded; then parse the SMTP port and the rate limiter parameters and
construct the `RateLimiter` (which raises `NameError`, see
`RateLimiter.init`); finally parse thread/retry counts. -/
def OutreachManager.init (env : StartupEnv) : Except PyError ManagerState := do
  let email_user := env.config "EMAIL_USER"
  let email_password := env.config "EMAIL_PASSWORD"
  let resume_path := env.config "RESUME_PATH"
  let template_path := (env.config "EMAIL_TEMPLATE_PATH").getD "email_template.md"
  if !(pyTruthy email_user && pyTruthy email_password) then
    throw (.valueError "EMAIL_USER and EMAIL_PASSWORD must be set in .env file.")
  else if !pyTruthy resume_path || !env.fileExists (resume_path.getD "") then
    throw (.valueError "RESUME_PATH is not set or file not found")
  else
    match load_template env template_path with
    | none => throw (.valueError "Email template could not be loaded")
    | some tpl => do
      let smtp_server := (env.config "SMTP_SERVER").getD "smtp.gmail.com"
      let smtp_port ← pyIntOfConfig (env.config "SMTP_PORT") 587
      let cpp ← pyIntOfConfig (env.config "EMAIL_CALLS_PER_PERIOD") 10
      let per ← pyIntOfConfig (env.config "EMAIL_PERIOD") 60
      let _rl ← RateLimiter.init cpp per
      let mt ← pyIntOfConfig (env.config "MAX_EMAIL_THREADS") 10
      let mr ← pyIntOfConfig (env.config "MAX_EMAIL_RETRIES") 3
      pure ⟨(email_user.getD ""), (email_password.getD ""), resume_path.getD "",
            some tpl, smtp_server, smtp_port, mt, mr.toNat⟩

/-! ## src/outreach/__init__.py : sending -/

/-- Placeholder names appearing in a format string (a `\x7bname\x7d`
scan; a doubled opening brace escapes itself). -/
def placeholdersAux : List Char → Option (List Char) → List String
  | [], none => []
  | [], some acc => [String.mk acc.reverse]
  | '{' :: '{' :: rest, none => placeholdersAux rest none
  | '{' :: cs, none => placeholdersAux cs (some [])
  | _ :: cs, none => placeholdersAux cs none
  | '}' :: cs, some acc => String.mk acc.reverse :: placeholdersAux cs none
  | c :: cs, some acc => placeholdersAux cs (some (c :: acc))

/-- Placeholder names of a template string. -/
def placeholders (s : String) : List String :=
  placeholdersAux s.data none

/-- `template.format(recruiter_name=..., company_name=...)` succeeds iff
every placeholder is one of the two supplied keys (otherwise Python
raises `KeyError`, which `send_outreach_email` catches and turns into an
early return). -/
def formatOk (tpl : String) : Bool :=
  (placeholders tpl).all (fun k => k = "recruiter_name" || k = "company_name")

/-- Observable events of one `send_outreach_email` call, in order. -/
inductive SendEv
  | acquire                      -- self.email_rate_limiter.wait()
  | attempt (k : Nat) (ok : Bool) -- one smtplib transaction (attempt index, outcome)
  | sleepSuccess                  -- time.sleep(3) after a successful send
  | backoff (t : Nat)             -- time.sleep(2 ** attempt) before the next retry
  deriving DecidableEq

/-- Terminal state of one `send_outreach_email` call. -/
inductive SendOutcome
  | success (attemptsMade : Nat)      -- the info log "sent successfully ... after n attempts"
  | exhausted (maxRetries : Nat)      -- the final error log "Failed ... after max_retries attempts"
  | abortedTemplateMissing            -- early return: self.template is None
  | abortedTemplateKey                -- early return: KeyError from template.format
  | abortedAttachment                 -- early return: resume unreadable
  deriving DecidableEq

/-- The environment one send task runs against: filesystem at send time
and the transport, `transport k = true` iff the SMTP transaction of
attempt `k` succeeds (`false` models any raised exception; the code
catches `SMTPException`, `OSError` and `Exception` uniformly). -/
structure SendEnv where
  fileExists : String → Bool
  transport : Nat → Bool

/-- The retry loop `for attempt in range(max_retries)` of
`send_outreach_email` (lines 196-227), iterating over the remaining
attempt indices: on success log, sleep 3 and return; on an exception log
and, when `attempt < max_retries - 1`, sleep `2 ** attempt`; after the
loop log the exhaustion failure. -/
def retryLoop (env : SendEnv) (max_retries : Nat) : List Nat → List SendEv × SendOutcome
  | [] => ([], .exhausted max_retries)
  | k :: rest =>
    if env.transport k then
      ([.attempt k true, .sleepSuccess], .success (k + 1))
    else
      let tail := retryLoop env max_retries rest
      (.attempt k false :: ((if k < max_retries - 1 then [SendEv.backoff (2 ^ k)] else []) ++ tail.1),
       tail.2)

/-- `OutreachManager.send_outreach_email` (lines 150-227): resolve
`max_retries`; call `self.email_rate_limiter.wait()`; bail out if the
template is missing, if formatting raises `KeyError`, or if the resume
cannot be opened; then run the retry loop. -/
def send_outreach_email (m : ManagerState) (env : SendEnv)
    (hr_email hr_name company_name : String) (max_retries? : Option Nat) :
    List SendEv × SendOutcome :=
  let max_retries := max_retries?.getD m.max_retries
  match m.template with
  | none => ([.acquire], .abortedTemplateMissing)
  | some tpl =>
    if !formatOk tpl then
      ([.acquire], .abortedTemplateKey)
    else if !env.fileExists m.resume_path then
      ([.acquire], .abortedAttachment)
    else
      let r := retryLoop env max_retries (List.range max_retries)
      (.acquire :: r.1, r.2)

/-! ## src/outreach/__init__.py : dispatcher -/

/-- One recipient record (a row dict); `none` models a missing key. -/
structure Recruiter where
  name : Option String
  company : Option String
  email : Option String
  deriving DecidableEq

/-- Arguments of one submitted send task. -/
structure SendTask where
  hr_email : String
  hr_name : String
  company_name : String
  deriving DecidableEq

/-- What the submission loop of `send_emails_concurrently` does with one
record. -/
inductive SubmitResult
  | submitted (t : SendTask)            -- executor.submit(send_outreach_email, ...)
  | skippedInvalidEmail (email : String) -- warning log + continue at the _find_email gate
  | skippedMissingKey                    -- except KeyError: record skipped
  | skippedException                     -- except Exception: record skipped (e.g. IndexError)
  deriving DecidableEq

/-- Body of the submission loop of `send_emails_concurrently`
(lines 237-262) for one record: `recruiter["Email"]` (KeyError when
absent), `str(recruiter.get("Name", "HR")).split()[0]` (IndexError when
the name splits to no tokens), the company default, the dead
`if not hr_name` / `if not company_name` fallbacks, the `_find_email`
validation gate, then submission. -/
def processRecruiter (r : Recruiter) : SubmitResult :=
  match r.email with
  | none => .skippedMissingKey
  | some e =>
    let hr_email := pyStrip e
    match pySplit (r.name.getD "HR") with
    | [] => .skippedException
    | tok :: _ =>
      let hr_name := tok
      let company0 := pyStrip (r.company.getD "your company")
      let hr_name := if hr_name.isEmpty then "HR" else hr_name
      let company_name := if company0.isEmpty then "your company" else company0
      if !find_email hr_email then
        .skippedInvalidEmail hr_email
      else
        .submitted ⟨hr_email, hr_name, company_name⟩

/-- The submission loop applied to a whole batch. -/
def submitResults (rs : List Recruiter) : List SubmitResult :=
  rs.map processRecruiter

/-- The futures list: the tasks actually handed to the thread pool. -/
def submittedTasks (rs : List Recruiter) : List SendTask :=
  (submitResults rs).filterMap (fun o =>
    match o with
    | .submitted t => some t
    | _ => none)

/-- `OutreachManager.send_emails_concurrently` (lines 229-269): the
submission loop, then one `future.result()` per submitted task (the
`as_completed` join; `send_outreach_email` returns `None` and swallows
its own errors, so the join only collects).  The Python function builds
no summary and returns `None`; its observable product is the pair of the
per-record submission results and the per-task send results. -/
def send_emails_concurrently (m : ManagerState) (env : SendEnv) (rs : List Recruiter) :
    List SubmitResult × List (List SendEv × SendOutcome) :=
  (submitResults rs,
   (submittedTasks rs).map (fun t =>
     send_outreach_email m env t.hr_email t.hr_name t.company_name none))

/-! ## src/main.py -/

/-- How `main()` ends when startup fails, or the dispatch it performs. -/
inductive MainResult
  | exited (code : Nat)
  | ran (batch : List SubmitResult × List (List SendEv × SendOutcome))
  deriving DecidableEq

/-- `main()` up to and including dispatch (src/main.py lines 26-68):
`ConfigLoader()` raises `FileNotFoundError` when `.env` is absent
(uncaught, the interpreter exits with status 1); `OutreachManager(...)`
may raise (a `ValueError` is caught and answered with `sys.exit(1)`, any
other exception is uncaught and also ends the process with status 1);
only afterwards are records loaded and `send_emails_concurrently`
called. -/
def mainRun (env : StartupEnv) (senv : SendEnv) (rs : List Recruiter) : MainResult :=
  if !env.fileExists ".env" then
    .exited 1
  else
    match OutreachManager.init env with
    | .error _ => .exited 1
    | .ok m => .ran (send_emails_concurrently m senv rs)

/-! ## Observation helpers and concrete fixtures -/

/-- Is this event a rate-limiter acquisition? -/
def isAcquireEv : SendEv → Bool
  | .acquire => true
  | _ => false

/-- Is this event a transport attempt? -/
def isAttemptEv : SendEv → Bool
  | .attempt _ _ => true
  | _ => false

/-- The backoff delays slept during a send, in order. -/
def backoffTimes (evs : List SendEv) : List Nat :=
  evs.filterMap (fun e =>
    match e with
    | .backoff t => some t
    | _ => none)

/-- Did the submission loop submit this record? -/
def isSubmittedR : SubmitResult → Bool
  | .submitted _ => true
  | _ => false

/-- A manager state as `__init__` would have produced it (template
loaded, no stray placeholders, `max_retries = 3`). -/
def testManager : ManagerState :=
  ⟨"user@example.com", "pw", "resume.pdf", some "Hello", "smtp.gmail.com", 587, 10, 3⟩

/-- Send environment whose transport fails on every attempt. -/
def sendEnvAllFail : SendEnv := ⟨fun _ => true, fun _ => false⟩

/-- Send environment whose transport succeeds on every attempt. -/
def sendEnvAllOk : SendEnv := ⟨fun _ => true, fun _ => true⟩

/-- A well-formed recipient record. -/
def validRec : Recruiter := ⟨some "Jane Doe", some "Acme", some "jane@acme.com"⟩

/-- A recipient record whose email fails the pattern gate. -/
def invalidRec : Recruiter := ⟨some "Bob", some "X", some "not-an-email"⟩

/-! ## Supporting lemmas -/

/-- The retry loop never touches the rate limiter. -/
theorem retryLoop_no_acquire (env : SendEnv) (mr : Nat) (l : List Nat) :
    ((retryLoop env mr l).1).countP isAcquireEv = 0 := by
  induction l with
  | nil => simp [retryLoop]
  | cons k rest ih =>
    by_cases h : env.transport k
    · simp [retryLoop, h, isAcquireEv]
    · by_cases h2 : k < mr - 1 <;>
        simp [retryLoop, h, h2, isAcquireEv, List.countP_cons, List.countP_append, ih]

/-- Every call to `send_outreach_email` opens with exactly one
rate-limiter acquisition, and no further acquisition ever follows. -/
theorem send_acquires_once (m : ManagerState) (env : SendEnv)
    (hr_email hr_name company_name : String) (mro : Option Nat) :
    ((send_outreach_email m env hr_email hr_name company_name mro).1).countP isAcquireEv = 1 ∧
    ((send_outreach_email m env hr_email hr_name company_name mro).1).head? =
      some SendEv.acquire := by
  unfold send_outreach_email
  cases htpl : m.template with
  | none => simp [isAcquireEv]
  | some tpl =>
    by_cases hfmt : formatOk tpl
    · by_cases hfile : env.fileExists m.resume_path
      · simp only [hfmt, hfile, Bool.not_true, Bool.false_eq_true, if_false, if_neg,
          Bool.not_eq_true']
        constructor
        · simp [List.countP_cons, isAcquireEv, retryLoop_no_acquire]
        · simp
      · simp [hfmt, hfile, isAcquireEv]
    · simp [hfmt, isAcquireEv]

/-! ## Claims C1, C2, C5, C6 -/

/-- C1: for every pair of constructor arguments,
`RateLimiter(calls_per_period, period)` raises `NameError` (the module
uses the unimported name `logging`), and consequently
`OutreachManager.__init__`, which builds a `RateLimiter` after its
configuration checks, never returns successfully: every startup
environment yields some raised exception. -/
theorem c1_construction_always_raises :
    (∀ calls_per_period period : Int,
      RateLimiter.init calls_per_period period =
        Except.error (PyError.nameError "logging")) ∧
    (∀ env : StartupEnv, ∃ e : PyError, OutreachManager.init env = Except.error e) := by
  constructor
  · intro cpp per
    simp [RateLimiter.init, ratelimiterModuleGlobals]
  · intro env
    unfold OutreachManager.init
    cases h1 : pyTruthy (env.config "EMAIL_USER") && pyTruthy (env.config "EMAIL_PASSWORD") with
    | false =>
      exact ⟨PyError.valueError "EMAIL_USER and EMAIL_PASSWORD must be set in .env file.",
        by simp [h1, throw, throwThe, MonadExceptOf.throw]⟩
    | true =>
      cases h2 : (!pyTruthy (env.config "RESUME_PATH") ||
          !env.fileExists ((env.config "RESUME_PATH").getD "")) with
      | true =>
        exact ⟨PyError.valueError "RESUME_PATH is not set or file not found",
          by simp [h1, h2, throw, throwThe, MonadExceptOf.throw]⟩
      | false =>
        cases htpl : load_template env ((env.config "EMAIL_TEMPLATE_PATH").getD "email_template.md") with
        | none =>
          exact ⟨PyError.valueError "Email template could not be loaded",
            by simp [h1, h2, htpl, throw, throwThe, MonadExceptOf.throw]⟩
        | some tpl =>
          simp only [h1, h2, htpl, Bool.not_true, Bool.false_eq_true, if_false]
          cases hp : pyIntOfConfig (env.config "SMTP_PORT") 587 with
          | error e => exact ⟨e, by simp [hp, Bind.bind, Except.bind]⟩
          | ok port =>
            cases hc : pyIntOfConfig (env.config "EMAIL_CALLS_PER_PERIOD") 10 with
            | error e => exact ⟨e, by simp [hp, hc, Bind.bind, Except.bind]⟩
            | ok cpp =>
              cases hq : pyIntOfConfig (env.config "EMAIL_PERIOD") 60 with
              | error e => exact ⟨e, by simp [hp, hc, hq, Bind.bind, Except.bind]⟩
              | ok per =>
                exact ⟨PyError.nameError "logging",
                  by simp [hp, hc, hq, Bind.bind, Except.bind,
                    RateLimiter.init, ratelimiterModuleGlobals]⟩

/-- C2 counterexample: with a transport that fails every attempt and
`max_retries = 3`, one `send_outreach_email` call performs exactly one
rate-limiter acquisition but three transport attempts, so the number of
acquisitions does not equal the number of attempts. -/
theorem c2_counterexample_one_acquire_three_attempts :
    ((send_outreach_email testManager sendEnvAllFail "jane@acme.com" "Jane" "Acme" none).1).countP
        isAcquireEv = 1 ∧
    ((send_outreach_email testManager sendEnvAllFail "jane@acme.com" "Jane" "Acme" none).1).countP
        isAttemptEv = 3 ∧
    ¬ (((send_outreach_email testManager sendEnvAllFail "jane@acme.com" "Jane" "Acme" none).1).countP
          isAcquireEv =
        ((send_outreach_email testManager sendEnvAllFail "jane@acme.com" "Jane" "Acme" none).1).countP
          isAttemptEv) := by
  refine ⟨by decide, by decide, by decide⟩

/-- C2 amended: the rate limiter's blocking acquire is invoked exactly
once per `send_outreach_email` call, as its first action and before the
first transport attempt; retries are not preceded by further
acquisitions, so the acquisition count is one regardless of how many
transport attempts the call makes. -/
theorem c2_amended_single_acquisition_before_attempts (m : ManagerState) (env : SendEnv)
    (hr_email hr_name company_name : String) (mro : Option Nat) :
    ((send_outreach_email m env hr_email hr_name company_name mro).1).countP isAcquireEv = 1 ∧
    ((send_outreach_email m env hr_email hr_name company_name mro).1).head? =
      some SendEv.acquire :=
  send_acquires_once m env hr_email hr_name company_name mro

/-- C5: if the transport raises a (transient) error on every attempt and
`max_retries = 3`, one `send_outreach_email` call makes exactly 3
transport attempts, records the exhaustion failure, and the backoff
slept before retry `k` (0-indexed, `k ≥ 1`) is `2^(k-1)`: the full event
trace is attempt 0, backoff `2^0`, attempt 1, backoff `2^1`, attempt 2,
and the total backoff is `2^0 + 2^1`. -/
theorem c5_retry_exhaustion (m : ManagerState) (env : SendEnv)
    (hr_email hr_name company_name : String) (tpl : String)
    (htpl : m.template = some tpl) (hfmt : formatOk tpl = true)
    (hfile : env.fileExists m.resume_path = true)
    (hmr : m.max_retries = 3)
    (htr : ∀ k, env.transport k = false) :
    send_outreach_email m env hr_email hr_name company_name none =
      ([SendEv.acquire, SendEv.attempt 0 false, SendEv.backoff 1,
        SendEv.attempt 1 false, SendEv.backoff 2, SendEv.attempt 2 false],
       SendOutcome.exhausted 3) ∧
    ((send_outreach_email m env hr_email hr_name company_name none).1).countP isAttemptEv = 3 ∧
    backoffTimes (send_outreach_email m env hr_email hr_name company_name none).1 =
      [2 ^ 0, 2 ^ 1] ∧
    (backoffTimes (send_outreach_email m env hr_email hr_name company_name none).1).sum =
      2 ^ 0 + 2 ^ 1 := by
  have hrange : List.range 3 = [0, 1, 2] := by decide
  have hmain : send_outreach_email m env hr_email hr_name company_name none =
      ([SendEv.acquire, SendEv.attempt 0 false, SendEv.backoff 1,
        SendEv.attempt 1 false, SendEv.backoff 2, SendEv.attempt 2 false],
       SendOutcome.exhausted 3) := by
    unfold send_outreach_email
    simp [htpl, hfmt, hfile, hmr, hrange, retryLoop, htr]
  refine ⟨hmain, ?_, ?_, ?_⟩ <;> rw [hmain] <;> decide

/-- C5 witness: the exhaustion scenario at a concrete manager and
transport. -/
theorem c5_retry_exhaustion_witness :
    send_outreach_email testManager sendEnvAllFail "jane@acme.com" "Jane" "Acme" none =
      ([SendEv.acquire, SendEv.attempt 0 false, SendEv.backoff 1,
        SendEv.attempt 1 false, SendEv.backoff 2, SendEv.attempt 2 false],
       SendOutcome.exhausted 3) :=
  (c5_retry_exhaustion testManager sendEnvAllFail "jane@acme.com" "Jane" "Acme" "Hello"
    rfl (by decide) rfl rfl (fun _ => rfl)).1

/-- C6: the claim is right and the code has a slip.  A record whose
`Name` value is present but empty (or whitespace) makes
`str(recruiter.get("Name", "HR")).split()[0]` raise `IndexError`, so the
record is skipped by the `except Exception` handler instead of being
processed with the default name "HR" (the later `if not hr_name`
fallback is unreachable).  A missing `Name` key does fall back to "HR",
and a non-empty name is reduced to its first whitespace-delimited
token. -/
theorem c6_empty_name_crashes_record :
    processRecruiter ⟨some "", some "Acme", some "jane@acme.com"⟩ =
      SubmitResult.skippedException ∧
    processRecruiter ⟨some "   ", some "Acme", some "jane@acme.com"⟩ =
      SubmitResult.skippedException ∧
    processRecruiter ⟨none, some "Acme", some "jane@acme.com"⟩ =
      SubmitResult.submitted ⟨"jane@acme.com", "HR", "Acme"⟩ ∧
    processRecruiter ⟨some "Jane Doe", some "Acme", some "jane@acme.com"⟩ =
      SubmitResult.submitted ⟨"jane@acme.com", "Jane", "Acme"⟩ := by
  refine ⟨by decide, by decide, by decide, by decide⟩

/-! ## Claims C10, C4, C7 -/

/-- C10: email validation is a substring search, not a full-string
match: a string containing an address-pattern substring amid other text
passes the `_find_email` gate, and whenever a record is submitted, the
address handed to the transport is the full stripped `Email` value, not
the extracted address substring. -/
theorem c10_substring_validation_full_string_sent :
    (∀ (r : Recruiter) (e : String) (t : SendTask),
      r.email = some e → processRecruiter r = SubmitResult.submitted t →
      t.hr_email = pyStrip e) ∧
    find_email "Contact: jane.doe@acme.com (recruiter)" = true ∧
    processRecruiter ⟨some "Jane Doe", some "Acme",
        some "Contact: jane.doe@acme.com (recruiter)"⟩ =
      SubmitResult.submitted ⟨"Contact: jane.doe@acme.com (recruiter)", "Jane", "Acme"⟩ := by
  refine ⟨?_, by decide, by decide⟩
  intro r e t he h
  unfold processRecruiter at h
  rw [he] at h
  cases hsplit : pySplit (r.name.getD "HR") with
  | nil => simp [hsplit] at h
  | cons tok rest =>
    rw [hsplit] at h
    by_cases hfe : find_email (pyStrip e)
    · simp only [hfe, Bool.not_true, Bool.false_eq_true, if_false, if_neg] at h
      cases h
      rfl
    · simp [hfe] at h

/-- C10 witness: the universal part of
`c10_substring_validation_full_string_sent` applied to a record whose
email value carries surrounding text and whitespace. -/
theorem c10_substring_validation_witness :
    (⟨"Contact: jane.doe@acme.com (recruiter)", "Jane", "Acme"⟩ : SendTask).hr_email =
      pyStrip "  Contact: jane.doe@acme.com (recruiter)  " :=
  c10_substring_validation_full_string_sent.1
    ⟨some "Jane Doe", some "Acme", some "  Contact: jane.doe@acme.com (recruiter)  "⟩
    "  Contact: jane.doe@acme.com (recruiter)  "
    ⟨"Contact: jane.doe@acme.com (recruiter)", "Jane", "Acme"⟩
    rfl (by decide)

/-- C4 counterexample: running the dispatcher on a batch of one valid and
one invalid record produces, in full, one submission, one skip message
and one collected task result — and nothing else.  In particular
`send_emails_concurrently` computes no `BatchSummary`: no succeeded or
failed count and no `(recipient_email, reason)` failure entry exists
anywhere in its output (in Python it returns `None`), refuting the
claimed `total_submitted = succeeded + failed` accounting. -/
theorem c4_counterexample_no_batch_summary :
    send_emails_concurrently testManager sendEnvAllOk [validRec, invalidRec] =
      ([SubmitResult.submitted ⟨"jane@acme.com", "Jane", "Acme"⟩,
        SubmitResult.skippedInvalidEmail "not-an-email"],
       [([SendEv.acquire, SendEv.attempt 0 true, SendEv.sleepSuccess],
         SendOutcome.success 1)]) := by
  decide

/-- C4 amended: `send_emails_concurrently` returns no batch summary and
keeps no success/failure counts; what holds of every run is the
bookkeeping the code actually does: each input record yields exactly one
submission result, the submitted records plus the skipped records
account for the whole batch, and the join collects exactly one result
per submitted task. -/
theorem c4_amended_dispatch_bookkeeping (m : ManagerState) (env : SendEnv)
    (rs : List Recruiter) :
    (send_emails_concurrently m env rs).1.length = rs.length ∧
    (submitResults rs).countP isSubmittedR +
      (submitResults rs).countP (fun o => !isSubmittedR o) = rs.length ∧
    (send_emails_concurrently m env rs).2.length = (submittedTasks rs).length := by
  refine ⟨?_, ?_, ?_⟩
  · simp [send_emails_concurrently, submitResults]
  · have key : ∀ l : List SubmitResult,
        l.countP isSubmittedR + l.countP (fun o => !isSubmittedR o) = l.length := by
      intro l
      induction l with
      | nil => simp
      | cons a t ih => by_cases h : isSubmittedR a <;> simp [List.countP_cons, h] <;> omega
    rw [key]
    simp [submitResults]
  · simp [send_emails_concurrently]

/-- C7 counterexample: for a record whose email fails validation the
dispatcher only logs and skips: the run's whole output for such a batch
is the skip marker and an empty result list — no `Failure` outcome with
reason `invalid_email` and `attempts_made = 0` is recorded anywhere,
refuting the "is recorded" part of the claim. -/
theorem c7_counterexample_skip_records_nothing :
    send_emails_concurrently testManager sendEnvAllOk [invalidRec] =
      ([SubmitResult.skippedInvalidEmail "not-an-email"], []) := by
  decide

/-- C7 amended: a record whose email fails address-pattern validation is
skipped without any transport attempt and without occupying a worker
slot — removing it from the batch changes neither the submitted tasks
nor the collected results, and the records around it are still
processed; but only a warning is logged for it, no `Failure` outcome is
recorded. -/
theorem c7_amended_invalid_email_skipped (m : ManagerState) (env : SendEnv)
    (pre post : List Recruiter) (r : Recruiter) (e : String)
    (he : r.email = some e) (hinv : find_email (pyStrip e) = false)
    (hname : pySplit (r.name.getD "HR") ≠ []) :
    processRecruiter r = SubmitResult.skippedInvalidEmail (pyStrip e) ∧
    submittedTasks (pre ++ r :: post) = submittedTasks pre ++ submittedTasks post ∧
    (send_emails_concurrently m env (pre ++ r :: post)).2 =
      (send_emails_concurrently m env (pre ++ post)).2 := by
  have hskip : processRecruiter r = SubmitResult.skippedInvalidEmail (pyStrip e) := by
    unfold processRecruiter
    rw [he]
    cases hsplit : pySplit (r.name.getD "HR") with
    | nil => exact absurd hsplit hname
    | cons tok rest => simp [hinv]
  have htasks : submittedTasks (pre ++ r :: post) = submittedTasks pre ++ submittedTasks post := by
    simp [submittedTasks, submitResults, List.filterMap_append, hskip]
  refine ⟨hskip, htasks, ?_⟩
  simp only [send_emails_concurrently, htasks]
  simp [submittedTasks, submitResults, List.filterMap_append]

/-- C7 witness: the amended statement at a concrete batch. -/
theorem c7_amended_invalid_email_skipped_witness :
    processRecruiter invalidRec = SubmitResult.skippedInvalidEmail (pyStrip "not-an-email") ∧
    submittedTasks ([validRec] ++ invalidRec :: [validRec]) =
      submittedTasks [validRec] ++ submittedTasks [validRec] ∧
    (send_emails_concurrently testManager sendEnvAllOk ([validRec] ++ invalidRec :: [validRec])).2 =
      (send_emails_concurrently testManager sendEnvAllOk ([validRec] ++ [validRec])).2 :=
  c7_amended_invalid_email_skipped testManager sendEnvAllOk [validRec] [validRec]
    invalidRec "not-an-email" rfl (by decide) (by decide)

/-! ## Claim C9 -/

/-- C9: if the sender credentials are missing (falsy), or the resume
path is unset or not on disk, or the template cannot be loaded, then
`OutreachManager.__init__` raises the corresponding `ValueError` and
`main` terminates with exit status 1 before any record is dispatched:
no transport attempt is ever made. -/
theorem c9_startup_failures_fail_fast (env : StartupEnv) (senv : SendEnv)
    (rs : List Recruiter)
    (hbad :
      pyTruthy (env.config "EMAIL_USER") = false ∨
      pyTruthy (env.config "EMAIL_PASSWORD") = false ∨
      pyTruthy (env.config "RESUME_PATH") = false ∨
      env.fileExists ((env.config "RESUME_PATH").getD "") = false ∨
      load_template env ((env.config "EMAIL_TEMPLATE_PATH").getD "email_template.md") = none) :
    (∃ msg, OutreachManager.init env = Except.error (PyError.valueError msg)) ∧
    mainRun env senv rs = MainResult.exited 1 := by
  have herr : ∃ msg, OutreachManager.init env = Except.error (PyError.valueError msg) := by
    unfold OutreachManager.init
    cases h1 : pyTruthy (env.config "EMAIL_USER") && pyTruthy (env.config "EMAIL_PASSWORD") with
    | false =>
      exact ⟨"EMAIL_USER and EMAIL_PASSWORD must be set in .env file.",
        by simp [h1, throw, throwThe, MonadExceptOf.throw]⟩
    | true =>
      cases h2 : (!pyTruthy (env.config "RESUME_PATH") ||
          !env.fileExists ((env.config "RESUME_PATH").getD "")) with
      | true =>
        exact ⟨"RESUME_PATH is not set or file not found",
          by simp [h1, h2, throw, throwThe, MonadExceptOf.throw]⟩
      | false =>
        cases htpl : load_template env
            ((env.config "EMAIL_TEMPLATE_PATH").getD "email_template.md") with
        | none =>
          exact ⟨"Email template could not be loaded",
            by simp [h1, h2, htpl, throw, throwThe, MonadExceptOf.throw]⟩
        | some tpl =>
          exfalso
          rw [Bool.and_eq_true] at h1
          rw [Bool.or_eq_false_iff] at h2
          obtain ⟨h1a, h1b⟩ := h1
          obtain ⟨h2a, h2b⟩ := h2
          rcases hbad with h | h | h | h | h
          · rw [h] at h1a; exact Bool.false_ne_true h1a
          · rw [h] at h1b; exact Bool.false_ne_true h1b
          · rw [h] at h2a; simp at h2a
          · rw [h] at h2b; simp at h2b
          · rw [h] at htpl; exact Option.noConfusion htpl
  refine ⟨herr, ?_⟩
  obtain ⟨msg, hmsg⟩ := herr
  unfold mainRun
  cases hdot : env.fileExists ".env" with
  | false => simp [hdot]
  | true => simp [hdot, hmsg]

/-- C9 witness: a startup environment with the password unset. -/
theorem c9_startup_failures_fail_fast_witness :
    (∃ msg, OutreachManager.init
        ⟨fun k => if k = "EMAIL_USER" then some "user@example.com" else none,
         fun _ => true, fun _ => some "Hello"⟩ =
      Except.error (PyError.valueError msg)) ∧
    mainRun
        ⟨fun k => if k = "EMAIL_USER" then some "user@example.com" else none,
         fun _ => true, fun _ => some "Hello"⟩
        sendEnvAllOk [validRec] = MainResult.exited 1 :=
  c9_startup_failures_fail_fast
    ⟨fun k => if k = "EMAIL_USER" then some "user@example.com" else none,
     fun _ => true, fun _ => some "Hello"⟩
    sendEnvAllOk [validRec] (Or.inr (Or.inl (by decide)))

/-! ## Rate limiter: sliding-window development (claims C3, C8) -/

/-- Filtering with a pointwise-stronger predicate keeps fewer elements. -/
theorem length_filter_le_filter {α : Type} (l : List α) (p q : α → Bool)
    (h : ∀ x ∈ l, p x = true → q x = true) :
    (l.filter p).length ≤ (l.filter q).length := by
  induction l with
  | nil => simp
  | cons a t ih =>
    have ht : ∀ x ∈ t, p x = true → q x = true :=
      fun x hx => h x (List.mem_cons_of_mem a hx)
    by_cases hp : p a
    · have hq : q a = true := h a (List.mem_cons_self a t) hp
      simp only [List.filter_cons, hp, hq, if_true, List.length_cons]
      exact Nat.succ_le_succ (ih ht)
    · simp only [List.filter_cons, hp, if_false, Bool.false_eq_true]
      by_cases hq : q a
      · simp only [hq, if_true, List.length_cons]
        exact le_trans (ih ht) (Nat.le_succ _)
      · simp only [hq, if_false, Bool.false_eq_true]
        exact ih ht

/-- A `≤`-sorted list of integers splits as the elements `≤ a` followed
by the elements `> a`. -/
theorem sorted_filter_split (a : ℤ) (l : List ℤ) (hl : l.Sorted (· ≤ ·)) :
    l = l.filter (fun t => decide (t ≤ a)) ++ l.filter (fun t => decide (a < t)) := by
  induction l with
  | nil => simp
  | cons x xs ih =>
    rw [List.sorted_cons] at hl
    obtain ⟨hx, hxs⟩ := hl
    by_cases hxa : x ≤ a
    · simp only [List.filter_cons, decide_eq_true hxa, if_true,
        decide_eq_false (not_lt.mpr hxa), Bool.false_eq_true, if_false, List.cons_append]
      exact congrArg (x :: ·) (ih hxs)
    · push_neg at hxa
      have h1 : xs.filter (fun t => decide (t ≤ a)) = [] := by
        rw [List.filter_eq_nil_iff]
        intro y hy
        simp only [decide_eq_true_eq]
        exact not_le.mpr (lt_of_lt_of_le hxa (hx y hy))
      have h2 : xs.filter (fun t => decide (a < t)) = xs := by
        rw [List.filter_eq_self]
        intro y hy
        exact decide_eq_true (lt_of_lt_of_le hxa (hx y hy))
      simp only [List.filter_cons, decide_eq_false (not_le.mpr hxa), Bool.false_eq_true,
        if_false, decide_eq_true hxa, if_true, h1, h2, List.nil_append]

/-- The default head of a nonempty list is a member. -/
theorem headD_mem_of_ne_nil {α : Type} (l : List α) (d : α) (h : l ≠ []) :
    l.headD d ∈ l := by
  cases l with
  | nil => exact absurd rfl h
  | cons a t => simp

/-- In a `≤`-sorted list, the default head is a lower bound. -/
theorem sorted_headD_le (l : List ℤ) (d : ℤ) (hl : l.Sorted (· ≤ ·)) :
    ∀ x ∈ l, l.headD d ≤ x := by
  cases l with
  | nil => intro x hx; cases hx
  | cons a t =>
    intro x hx
    rw [List.sorted_cons] at hl
    rcases List.mem_cons.mp hx with h | h
    · exact h ▸ le_refl _
    · exact hl.1 x h

/-- Invariant of a sequential run of `RateLimiter.wait` with parameters
`cpp ≥ 1`, `period ≥ 1`: the grant history is sorted, the stored list is
a suffix of it whose dropped prefix is expired, all grants are in the
past, at most `cpp` stored timestamps are inside the current window, the
stored list has at most `cpp + 1` entries, and every trailing window of
length `period` holds at most `cpp` grants. -/
def RLInv (cpp : Nat) (period : ℤ) (s : RLState) : Prop :=
  s.grants.Sorted (· ≤ ·) ∧
  (∃ dropped, s.grants = dropped ++ s.timestamps ∧
    ∀ x ∈ dropped, x ≤ s.clock - period) ∧
  (∀ g ∈ s.grants, g ≤ s.clock) ∧
  (s.timestamps.filter (fun t => decide (s.clock - period < t))).length ≤ cpp ∧
  s.timestamps.length ≤ cpp + 1 ∧
  (∀ t : ℤ, windowCount s.grants period t ≤ cpp)

/-- The invariant holds of a fresh limiter. -/
theorem RLInv_init (cpp : Nat) (period : ℤ) (t0 : ℤ) :
    RLInv cpp period (RLState.init t0) := by
  refine ⟨by simp [RLState.init], ⟨[], by simp [RLState.init], by simp⟩,
    by simp [RLState.init], by simp [RLState.init], by simp [RLState.init], ?_⟩
  intro t
  simp [RLState.init, windowCount]

/-- `wait` in the non-blocking branch: fewer than `cpp` stored
timestamps survive pruning, so `now` is appended immediately. -/
theorem wait_immediate (cpp : Nat) (period : ℤ) (s : RLState) (delay : ℤ)
    (hb : ¬ cpp ≤
      (s.timestamps.filter (fun t => decide (s.clock + delay - period < t))).length) :
    RateLimiter.wait cpp period s delay =
      ⟨s.timestamps.filter (fun t => decide (s.clock + delay - period < t)) ++
        [s.clock + delay],
       s.clock + delay, s.grants ++ [s.clock + delay]⟩ := by
  simp [RateLimiter.wait, hb]

/-- `wait` in the blocking branch: the window is full, the caller sleeps
`period - (now - timestamps[0])` (always positive there) and the re-read
clock is appended. -/
theorem wait_sleep (cpp : Nat) (period : ℤ) (s : RLState) (delay : ℤ)
    (hb : cpp ≤
      (s.timestamps.filter (fun t => decide (s.clock + delay - period < t))).length)
    (hslp : 0 < period - (s.clock + delay -
      (s.timestamps.filter (fun t => decide (s.clock + delay - period < t))).headD 0)) :
    RateLimiter.wait cpp period s delay =
      ⟨s.timestamps.filter (fun t => decide (s.clock + delay - period < t)) ++
        [s.clock + delay + (period - (s.clock + delay -
          (s.timestamps.filter (fun t => decide (s.clock + delay - period < t))).headD 0))],
       s.clock + delay + (period - (s.clock + delay -
         (s.timestamps.filter (fun t => decide (s.clock + delay - period < t))).headD 0)),
       s.grants ++ [s.clock + delay + (period - (s.clock + delay -
         (s.timestamps.filter (fun t => decide (s.clock + delay - period < t))).headD 0))]⟩ := by
  unfold RateLimiter.wait
  simp only [if_pos hb, if_pos hslp]

/-- One `wait` call preserves the invariant (for the post-clamp
parameters `cpp ≥ 1`, `period ≥ 1` and a monotone clock). -/
theorem RLInv_wait (cpp : Nat) (period : ℤ) (hcpp : 1 ≤ cpp) (hper : (1 : ℤ) ≤ period)
    (s : RLState) (hs : RLInv cpp period s) (delay : ℤ) (hd : 0 ≤ delay) :
    RLInv cpp period (RateLimiter.wait cpp period s delay) := by
  obtain ⟨hsorted, ⟨dropped, hsplit, hdrop⟩, hle, hfilt, hlen, hwin⟩ := hs
  set now := s.clock + delay with hnow
  set ts1 := s.timestamps.filter (fun t => decide (now - period < t)) with hts1
  have hclock_now : s.clock ≤ now := by rw [hnow]; linarith
  have hts_sub : s.timestamps.Sublist s.grants := by
    have h := List.sublist_append_right dropped s.timestamps
    rwa [← hsplit] at h
  have hts_sorted : s.timestamps.Sorted (· ≤ ·) := List.Pairwise.sublist hts_sub hsorted
  have hts1_sorted : ts1.Sorted (· ≤ ·) := List.Pairwise.filter _ hts_sorted
  have hmem_ts_le : ∀ x ∈ s.timestamps, x ≤ s.clock := fun x hx =>
    hle x (by rw [hsplit]; exact List.mem_append_right dropped hx)
  have hmem_ts1 : ∀ x ∈ ts1, now - period < x ∧ x ∈ s.timestamps := by
    intro x hx
    rw [hts1, List.mem_filter] at hx
    exact ⟨of_decide_eq_true hx.2, hx.1⟩
  have hlen1 : ts1.length ≤ cpp := by
    refine le_trans (length_filter_le_filter s.timestamps _ _ ?_) hfilt
    intro x _ hp
    have h := of_decide_eq_true hp
    exact decide_eq_true (by linarith)
  have hts_split : s.timestamps =
      s.timestamps.filter (fun t => decide (t ≤ now - period)) ++ ts1 := by
    have h := sorted_filter_split (now - period) s.timestamps hts_sorted
    rwa [← hts1] at h
  have hdrop_le : ∀ x ∈ s.timestamps.filter (fun t => decide (t ≤ now - period)),
      x ≤ now - period := by
    intro x hx
    rw [List.mem_filter] at hx
    exact of_decide_eq_true hx.2
  by_cases hb : cpp ≤ ts1.length
  · -- blocking branch: the pruned list is full, the caller sleeps
    have hne : ts1 ≠ [] := by
      intro h
      rw [h] at hb
      simp only [List.length_nil] at hb
      omega
    set first := ts1.headD 0 with hfirstd
    have hfirst_mem : first ∈ ts1 := headD_mem_of_ne_nil ts1 0 hne
    have hfirst_win : now - period < first := (hmem_ts1 first hfirst_mem).1
    have hfirst_le_now : first ≤ now :=
      le_trans (hmem_ts_le first (hmem_ts1 first hfirst_mem).2) hclock_now
    have hslp : 0 < period - (now - first) := by linarith
    rw [wait_sleep cpp period s delay hb hslp, ← hnow, ← hts1, ← hfirstd]
    set now2 := now + (period - (now - first)) with hnow2def
    have hnow2 : now2 = first + period := by rw [hnow2def]; ring
    have hnow_lt_now2 : now < now2 := by rw [hnow2def]; linarith
    have heq1 : ts1.length = cpp := le_antisymm hlen1 hb
    obtain ⟨tail, htail⟩ : ∃ tail, ts1 = first :: tail := by
      cases hts1e : ts1 with
      | nil => exact absurd hts1e hne
      | cons a t =>
        refine ⟨t, ?_⟩
        rw [hfirstd, hts1e]
        simp
    have htail_len : tail.length + 1 = cpp := by
      rw [← heq1, htail]
      simp
    have hmem_grants_le2 : ∀ g ∈ s.grants, g ≤ now2 := fun g hg =>
      le_trans (hle g hg) (le_trans hclock_now (le_of_lt hnow_lt_now2))
    refine ⟨?_, ?_, ?_, ?_, ?_, ?_⟩
    · show List.Sorted (· ≤ ·) (s.grants ++ [now2])
      rw [List.Sorted, List.pairwise_append]
      exact ⟨hsorted, List.pairwise_singleton _ _,
        fun x hx y hy => by rw [List.mem_singleton] at hy; rw [hy]; exact hmem_grants_le2 x hx⟩
    · show ∃ d, s.grants ++ [now2] = d ++ (ts1 ++ [now2]) ∧ ∀ x ∈ d, x ≤ now2 - period
      refine ⟨dropped ++ s.timestamps.filter (fun t => decide (t ≤ now - period)), ?_, ?_⟩
      · rw [hsplit]
        conv =>
          lhs
          rw [hts_split]
        simp [List.append_assoc]
      · intro x hx
        rcases List.mem_append.mp hx with h | h
        · have hxd := hdrop x h
          have : s.clock - period ≤ now2 - period := by linarith
          linarith
        · have hxd := hdrop_le x h
          have : now - period ≤ now2 - period := by linarith
          linarith
    · show ∀ g ∈ s.grants ++ [now2], g ≤ now2
      intro g hg
      rcases List.mem_append.mp hg with h | h
      · exact hmem_grants_le2 g h
      · rw [List.mem_singleton] at h
        exact h ▸ le_refl _
    · show ((ts1 ++ [now2]).filter (fun t => decide (now2 - period < t))).length ≤ cpp
      rw [List.filter_append, List.length_append]
      have hnew : ([now2].filter (fun t => decide (now2 - period < t))).length = 1 := by
        have h : now2 - period < now2 := by linarith
        simp [h]
      rw [hnew]
      have hfil : (ts1.filter (fun t => decide (now2 - period < t))).length ≤ tail.length := by
        rw [htail, List.filter_cons]
        have hnotfirst : ¬ (now2 - period < first) := by
          rw [hnow2]
          simp
        simp only [decide_eq_false hnotfirst, Bool.false_eq_true, if_false]
        exact List.length_filter_le _ _
      omega
    · show (ts1 ++ [now2]).length ≤ cpp + 1
      rw [List.length_append]
      simp only [List.length_singleton]
      omega
    · show ∀ t : ℤ, windowCount (s.grants ++ [now2]) period t ≤ cpp
      intro t
      unfold windowCount
      rw [List.filter_append, List.length_append]
      by_cases hin : t - period < now2 ∧ now2 ≤ t
      · have hnew : ([now2].filter (fun g => decide (t - period < g ∧ g ≤ t))).length = 1 := by
          simp [hin]
        rw [hnew]
        have hmono : (s.grants.filter (fun g => decide (t - period < g ∧ g ≤ t))).length ≤
            (s.grants.filter (fun g => decide (first < g ∧ g ≤ now2))).length := by
          refine length_filter_le_filter _ _ _ ?_
          intro x hx hp
          obtain ⟨hp1, hp2⟩ := of_decide_eq_true hp
          refine decide_eq_true ⟨?_, hmem_grants_le2 x hx⟩
          have hft : first ≤ t - period := by
            have h2 : now2 ≤ t := hin.2
            rw [hnow2] at h2
            linarith
          linarith
        have hsplitcount : (s.grants.filter (fun g => decide (first < g ∧ g ≤ now2))).length ≤
            tail.length := by
          rw [hsplit, List.filter_append, List.length_append]
          have hdropped0 : (dropped.filter (fun g => decide (first < g ∧ g ≤ now2))).length = 0 := by
            rw [List.length_eq_zero, List.filter_eq_nil_iff]
            intro x hx
            have hxd := hdrop x hx
            simp only [decide_eq_true_eq, not_and]
            intro hfx
            exfalso
            have hxn : x ≤ now - period := by linarith
            linarith
          rw [hdropped0, Nat.zero_add]
          have hts_eq : s.timestamps.filter (fun g => decide (first < g ∧ g ≤ now2)) =
              ts1.filter (fun g => decide (first < g ∧ g ≤ now2)) := by
            conv =>
              lhs
              rw [hts_split]
            rw [List.filter_append]
            have hz : (s.timestamps.filter (fun t => decide (t ≤ now - period))).filter
                (fun g => decide (first < g ∧ g ≤ now2)) = [] := by
              rw [List.filter_eq_nil_iff]
              intro x hx
              have hxd := hdrop_le x hx
              simp only [decide_eq_true_eq, not_and]
              intro hfx
              exfalso
              linarith
            rw [hz, List.nil_append]
          rw [hts_eq, htail, List.filter_cons]
          have hnotfirst : ¬ (first < first ∧ first ≤ now2) := by simp
          simp only [decide_eq_false hnotfirst, Bool.false_eq_true, if_false]
          exact List.length_filter_le _ _
        omega
      · have hnew : ([now2].filter (fun g => decide (t - period < g ∧ g ≤ t))).length = 0 := by
          simp [hin]
        rw [hnew, Nat.add_zero]
        have h := hwin t
        unfold windowCount at h
        exact h
  · -- immediate branch: room in the window, `now` is appended directly
    rw [wait_immediate cpp period s delay hb, ← hnow, ← hts1]
    push_neg at hb
    have hmem_grants_le : ∀ g ∈ s.grants, g ≤ now := fun g hg =>
      le_trans (hle g hg) hclock_now
    refine ⟨?_, ?_, ?_, ?_, ?_, ?_⟩
    · show List.Sorted (· ≤ ·) (s.grants ++ [now])
      rw [List.Sorted, List.pairwise_append]
      exact ⟨hsorted, List.pairwise_singleton _ _,
        fun x hx y hy => by rw [List.mem_singleton] at hy; rw [hy]; exact hmem_grants_le x hx⟩
    · show ∃ d, s.grants ++ [now] = d ++ (ts1 ++ [now]) ∧ ∀ x ∈ d, x ≤ now - period
      refine ⟨dropped ++ s.timestamps.filter (fun t => decide (t ≤ now - period)), ?_, ?_⟩
      · rw [hsplit]
        conv =>
          lhs
          rw [hts_split]
        simp [List.append_assoc]
      · intro x hx
        rcases List.mem_append.mp hx with h | h
        · have hxd := hdrop x h
          linarith
        · exact hdrop_le x h
    · show ∀ g ∈ s.grants ++ [now], g ≤ now
      intro g hg
      rcases List.mem_append.mp hg with h | h
      · exact hmem_grants_le g h
      · rw [List.mem_singleton] at h
        exact h ▸ le_refl _
    · show ((ts1 ++ [now]).filter (fun t => decide (now - period < t))).length ≤ cpp
      rw [List.filter_append, List.length_append]
      have hts1_self : ts1.filter (fun t => decide (now - period < t)) = ts1 := by
        rw [List.filter_eq_self]
        intro x hx
        exact decide_eq_true (hmem_ts1 x hx).1
      have hnew : ([now].filter (fun t => decide (now - period < t))).length = 1 := by
        have h : now - period < now := by linarith
        simp [h]
      rw [hts1_self, hnew]
      omega
    · show (ts1 ++ [now]).length ≤ cpp + 1
      rw [List.length_append]
      simp only [List.length_singleton]
      omega
    · show ∀ t : ℤ, windowCount (s.grants ++ [now]) period t ≤ cpp
      intro t
      unfold windowCount
      rw [List.filter_append, List.length_append]
      by_cases hin : t - period < now ∧ now ≤ t
      · have hnew : ([now].filter (fun g => decide (t - period < g ∧ g ≤ t))).length = 1 := by
          simp [hin]
        rw [hnew]
        have hmono : (s.grants.filter (fun g => decide (t - period < g ∧ g ≤ t))).length ≤
            (s.grants.filter (fun g => decide (now - period < g ∧ g ≤ now))).length := by
          refine length_filter_le_filter _ _ _ ?_
          intro x hx hp
          obtain ⟨hp1, hp2⟩ := of_decide_eq_true hp
          refine decide_eq_true ⟨?_, hmem_grants_le x hx⟩
          have h2 : now - period ≤ t - period := by linarith [hin.2]
          linarith
        have hsplitcount : (s.grants.filter (fun g => decide (now - period < g ∧ g ≤ now))).length ≤
            ts1.length := by
          rw [hsplit, List.filter_append, List.length_append]
          have hdropped0 :
              (dropped.filter (fun g => decide (now - period < g ∧ g ≤ now))).length = 0 := by
            rw [List.length_eq_zero, List.filter_eq_nil_iff]
            intro x hx
            have hxd := hdrop x hx
            simp only [decide_eq_true_eq, not_and]
            intro hfx
            exfalso
            linarith
          rw [hdropped0, Nat.zero_add]
          rw [hts1]
          refine length_filter_le_filter _ _ _ ?_
          intro x _ hp
          exact decide_eq_true (of_decide_eq_true hp).1
        omega
      · have hnew : ([now].filter (fun g => decide (t - period < g ∧ g ≤ t))).length = 0 := by
          simp [hin]
        rw [hnew, Nat.add_zero]
        have h := hwin t
        unfold windowCount at h
        exact h

/-- The invariant is preserved along any sequential run with nonnegative
inter-call delays. -/
theorem RLInv_run (cpp : Nat) (period : ℤ) (hcpp : 1 ≤ cpp) (hper : (1 : ℤ) ≤ period)
    (delays : List ℤ) (s : RLState) (hs : RLInv cpp period s)
    (hd : ∀ d ∈ delays, 0 ≤ d) :
    RLInv cpp period (RateLimiter.run cpp period delays s) := by
  induction delays generalizing s with
  | nil => exact hs
  | cons d ds ih =>
    have hd0 : 0 ≤ d := hd d (List.mem_cons_self d ds)
    have hds : ∀ x ∈ ds, 0 ≤ x := fun x hx => hd x (List.mem_cons_of_mem d hx)
    exact ih (RateLimiter.wait cpp period s d)
      (RLInv_wait cpp period hcpp hper s hs d hd0) hds

/-- The constructed clamps are at least one. -/
theorem one_le_clamps (cpp0 : Int) (period0 : ℤ) :
    1 ≤ clampCalls cpp0 ∧ (1 : ℤ) ≤ clampPeriod period0 := by
  constructor
  · unfold clampCalls
    have h := le_max_left (1 : Int) cpp0
    omega
  · exact le_max_left 1 period0

/-- C3: for every finite sequence of sequential `wait` calls of a
limiter constructed as `RateLimiter(calls_per_period, period)` (so with
the clamped parameters), under the modeled monotone clock, every
trailing half-open window `(t - period, t]` — the window convention of
the pruning step itself — contains at most `calls_per_period` granted
timestamps. -/
theorem c3_sliding_window_bound (cpp0 : Int) (period0 : ℤ) (t0 : ℤ)
    (delays : List ℤ) (t : ℤ) (hd : ∀ d ∈ delays, 0 ≤ d) :
    windowCount
      (RateLimiter.run (clampCalls cpp0) (clampPeriod period0) delays (RLState.init t0)).grants
      (clampPeriod period0) t ≤ clampCalls cpp0 := by
  obtain ⟨h1, h2⟩ := one_le_clamps cpp0 period0
  have hinv := RLInv_run (clampCalls cpp0) (clampPeriod period0) h1 h2 delays
    (RLState.init t0) (RLInv_init _ _ t0) hd
  exact hinv.2.2.2.2.2 t

/-- C3 witness: a concrete saturated run (`calls_per_period = 1`,
`period = 1`, two back-to-back calls) checked at the window ending at
the second grant. -/
theorem c3_sliding_window_bound_witness :
    windowCount
      (RateLimiter.run (clampCalls 1) (clampPeriod 1) [0, 0] (RLState.init 0)).grants
      (clampPeriod 1) 1 ≤ clampCalls 1 :=
  c3_sliding_window_bound 1 1 0 [0, 0] 1 (by decide)

/-- C8 counterexample: with `calls_per_period = 1` and `period = 1`, two
back-to-back `wait` calls leave `self.timestamps = [0, 1]` — the code
does not re-prune after sleeping, so immediately after the second
completed acquire the stored window has length 2 > 1 =
`calls_per_period`. -/
theorem c8_counterexample_stored_window_exceeds :
    (RateLimiter.run (clampCalls 1) (clampPeriod 1) [0, 0] (RLState.init 0)).timestamps =
      [0, 1] ∧
    ¬ ((RateLimiter.run (clampCalls 1) (clampPeriod 1) [0, 0]
          (RLState.init 0)).timestamps.length ≤ clampCalls 1) := by
  constructor
  · decide
  · decide

/-- C8 amended: immediately after every completed acquire (and in every
reachable state of a sequential run), the stored timestamp list has
length at most `calls_per_period + 1`: the pruning step leaves at most
`calls_per_period` entries and exactly one timestamp is appended, but a
just-expired entry may survive until the next call's pruning. -/
theorem c8_amended_stored_window_le_succ (cpp0 : Int) (period0 : ℤ) (t0 : ℤ)
    (delays : List ℤ) (hd : ∀ d ∈ delays, 0 ≤ d) :
    (RateLimiter.run (clampCalls cpp0) (clampPeriod period0) delays
        (RLState.init t0)).timestamps.length ≤ clampCalls cpp0 + 1 := by
  obtain ⟨h1, h2⟩ := one_le_clamps cpp0 period0
  have hinv := RLInv_run (clampCalls cpp0) (clampPeriod period0) h1 h2 delays
    (RLState.init t0) (RLInv_init _ _ t0) hd
  exact hinv.2.2.2.2.1

/-- C8 amended witness: the saturated two-call run reaches the bound
`calls_per_period + 1` exactly. -/
theorem c8_amended_stored_window_le_succ_witness :
    (RateLimiter.run (clampCalls 1) (clampPeriod 1) [0, 0]
        (RLState.init 0)).timestamps.length ≤ clampCalls 1 + 1 :=
  c8_amended_stored_window_le_succ 1 1 0 [0, 0] (by decide)
